import Mathlib

/-
Shallow embedding of the metatools repository (thecppzoo/metatools).

The repository is a set of C++ template metaprogramming utilities:
  - src/inc/meta/TypeAtIndex.h : type-at-index lookup over a type list,
    with a partial specialization unwrapping a single Pack argument;
  - src/inc/meta/PackIndexer.h : composes an executor template with
    TypeAtIndex over a Pack of types;
  - src/inc/meta/Indices.h     : an index-pack generator;
  - src/inc/meta/IndexPack.h   : an index pack with its arity;
  - src/inc/meta/Instantiator.h: two runtime dispatchers over the family
    UserTemplate<0..Size-1>::execute, one through a constexpr jump table
    (Instantiator) and one through a recursively generated switch
    (SwitchInstantiator).

Modelling conventions:
  - C++ types are modelled by the inductive `CType`: a base type, or a
    Pack of types (meta::Pack<Ts...>), so that the Pack specialization of
    TypeAtIndex is representable.
  - The handler family UserTemplate<i>::execute is an abstract function
    family `H : Nat -> A -> B`; all arguments are bundled into one value
    of type A.  To observe which specialization a dispatcher invokes, a
    handler call is modelled as producing the pair (i, H i a); the first
    component records the index of the invoked specialization.
  - Fallible or undefined behavior is modelled with Option: an
    out-of-bounds table read (undefined behavior in the source, which has
    no bounds check) yields no handler call and no result, and a non-void
    function whose control falls off the end (the missing return in
    SwitchInstantiator::doer) yields `none` as its result.
  - std::size_t indices become Nat.  Size = 0 does not compile in the
    source (SwitchInstantiator would recurse forever, and Size - 1 wraps
    around); theorems about the switch dispatcher therefore assume
    1 <= Size.
-/

namespace meta

/-- A C++ type, as far as this library can distinguish types: either an
atomic (base) type, identified by a code, or meta::Pack<Ts...> of a list
of types. -/
inductive CType : Type where
  | base : Nat → CType
  | mkPack : List CType → CType

/-- detail::TypeAtIndexByRemaining<Remaining, Head, Tail...> from
TypeAtIndex.h: peel `Remaining` types off the front, then take the head.
An instantiation with no types left is ill-formed in the source and is
modelled as `none`. -/
def typeAtIndexByRemaining : Nat → List CType → Option CType
  | _, [] => none
  | 0, h :: _ => some h
  | r + 1, _ :: t => typeAtIndexByRemaining r t

/-- TypeAtIndex<Index, Ts...>::type / TypeAtIndex_t from TypeAtIndex.h.
The Pack specialization TypeAtIndex<Index, Pack<Ts...>> applies when
the argument list is exactly one Pack, and recurses through TypeAtIndex
itself on the Pack elements; otherwise the primary template delegates to
detail::TypeAtIndexByRemaining. -/
def TypeAtIndex_t (i : Nat) (ts : List CType) : Option CType :=
  match ts with
  | [CType.mkPack us] => TypeAtIndex_t i us
  | _ => typeAtIndexByRemaining i ts

/-- PackIndexer<Executor, TypeArray...>::Internal<Index> from
PackIndexer.h: Executor<TypeAtIndex_t<Index, TypeArray...>>.  The
executor template is modelled as a function on types. -/
def PackIndexer.Internal {γ : Type _} (E : CType → γ) (tys : List CType)
    (i : Nat) : Option γ :=
  (TypeAtIndex_t i tys).map E

/-- IndexPack<T, indices...>::arity from IndexPack.h: sizeof...(indices).
An index pack is modelled as the list of its indices. -/
def IndexPack.arity (indices : List Nat) : Nat := indices.length

/-- Indices_impl<count, indices...>::type from Indices.h: recursion
prepends `count` and decrements until the count reaches 0, whereupon a
leading 0 is prepended to the accumulated indices. -/
def Indices_impl : Nat → List Nat → List Nat
  | 0, acc => 0 :: acc
  | c + 1, acc => Indices_impl c ((c + 1) :: acc)

/-- Indices<count> from Indices.h.  As written the alias is ill-formed
(it passes the type `unsigned long` where the non-type parameter `count`
is expected: Indices_impl<unsigned long, count>); we model the evident
reading Indices_impl<count>::type. -/
def Indices (count : Nat) : List Nat := Indices_impl count []

namespace Instantiator

/-- Instantiator::makeJumpTable(std::index_sequence<Indices...>) from
Instantiator.h: the array {{ UserTemplate<Indices>::execute... }}.  Each
entry is the handler at that index, instrumented to report the index of
the specialization that ran. -/
def makeJumpTable {α β : Type _} (H : Nat → α → β) (seq : List Nat) :
    List (α → Nat × β) :=
  seq.map (fun i => fun a => (i, H i a))

/-- The constexpr static jump table of Instantiator::execute, built once
from std::make_index_sequence<Size> (the indices 0, ..., Size-1). -/
def jumpTable {α β : Type _} (H : Nat → α → β) (N : Nat) :
    List (α → Nat × β) :=
  makeJumpTable H (List.range N)

/-- The body of Instantiator::execute as a read of the table state:
jumpTable[index](arguments...).  Returns (trace of invoked handler
indices, result) together with the table, which the source never writes
after construction (it is constexpr static).  An out-of-bounds index
reads past the std::array (undefined behavior, no bounds check in the
source), modelled as no handler call and no result. -/
def executeSt {α β : Type _} (a : α) (index : Nat)
    (st : List (α → Nat × β)) :
    (List Nat × Option β) × List (α → Nat × β) :=
  (match st.get? index with
   | some f => ([(f a).1], some ((f a).2))
   | none => ([], none),
   st)

/-- Instantiator::execute(arguments..., index) from Instantiator.h. -/
def execute {α β : Type _} (H : Nat → α → β) (N : Nat) (a : α)
    (index : Nat) : List Nat × Option β :=
  (executeSt a index (jumpTable H N)).1

end Instantiator

namespace SwitchInstantiator

/-- SwitchInstantiator::doer<Ndx> from Instantiator.h, with the enable_if
recursion expressed structurally through the remaining depth
rem = Size - 1 - Ndx (rem = 0 is the base overload Ndx == Size - 1,
rem > 0 the overload Ndx < Size - 1).  In the recursive overload,
`case Ndx:` returns UserTemplate<Ndx>::execute(args...), while the
`default:` branch calls doer<Ndx+1> WITHOUT returning its value: the
recursive call runs (its handler invocations happen) but control then
falls off the end of a non-void function, so no value is produced
(`none`). -/
def doerAux {α β : Type _} (H : Nat → α → β) (a : α) (index : Nat) :
    Nat → Nat → List Nat × Option β
  | ndx, 0 => ([ndx], some (H ndx a))
  | ndx, rem + 1 =>
    if index = ndx then ([ndx], some (H ndx a))
    else
      ((doerAux H a index (ndx + 1) rem).1, none)

/-- doer<Ndx> with Size explicit: the remaining depth is Size - 1 - Ndx. -/
def doer {α β : Type _} (H : Nat → α → β) (N : Nat) (a : α)
    (index : Nat) (ndx : Nat) : List Nat × Option β :=
  doerAux H a index ndx (N - 1 - ndx)

/-- SwitchInstantiator::execute(args..., index) = doer<0>(args..., index). -/
def execute {α β : Type _} (H : Nat → α → β) (N : Nat) (a : α)
    (index : Nat) : List Nat × Option β :=
  doer H N a index 0

end SwitchInstantiator

end meta

open meta

/-- The table built over the indices 0, ..., N-1 holds, at position
i < N, the handler for index i (instrumented with its index). -/
lemma jumpTable_get {α β : Type _} (H : Nat → α → β) {N i : Nat}
    (h : i < N) :
    (Instantiator.jumpTable H N).get? i = some (fun a => (i, H i a)) := by
  rw [Instantiator.jumpTable, Instantiator.makeJumpTable, List.get?_map,
    List.get?_range h]
  rfl

/-- The jump table has exactly N entries. -/
lemma jumpTable_length {α β : Type _} (H : Nat → α → β) (N : Nat) :
    (Instantiator.jumpTable H N).length = N := by
  simp [Instantiator.jumpTable, Instantiator.makeJumpTable]

/-- Reading the table past its end yields nothing. -/
lemma jumpTable_get_none {α β : Type _} (H : Nat → α → β) {N i : Nat}
    (h : N ≤ i) :
    (Instantiator.jumpTable H N).get? i = none := by
  rw [List.get?_eq_none]
  rw [jumpTable_length]
  exact h

/-- A doer chain reached with the target index still ahead of or at the
current label: the trace is exactly one invocation of the handler at the
target index, and the value survives to the current level only when the
target is the current label (the default branch discards the recursive
value). -/
lemma doerAux_of_le {α β : Type _} (H : Nat → α → β) (a : α)
    (index : Nat) :
    ∀ rem ndx, ndx ≤ index → index ≤ ndx + rem →
      SwitchInstantiator.doerAux H a index ndx rem =
        ([index], if index = ndx then some (H index a) else none) := by
  intro rem
  induction rem with
  | zero =>
    intro ndx h1 h2
    have he : index = ndx := by omega
    subst he
    simp [SwitchInstantiator.doerAux]
  | succ r ih =>
    intro ndx h1 h2
    by_cases he : index = ndx
    · subst he
      simp [SwitchInstantiator.doerAux]
    · rw [SwitchInstantiator.doerAux, if_neg he,
        ih (ndx + 1) (by omega) (by omega)]
      simp [he]

/-- A doer chain whose target index lies beyond every remaining label
runs down to the terminal overload: only the last handler (the one at
label ndx + rem) is invoked, and its value survives only when the chain
is already at the terminal overload (rem = 0). -/
lemma doerAux_of_gt {α β : Type _} (H : Nat → α → β) (a : α)
    (index : Nat) :
    ∀ rem ndx, ndx + rem < index →
      SwitchInstantiator.doerAux H a index ndx rem =
        ([ndx + rem], if rem = 0 then some (H ndx a) else none) := by
  intro rem
  induction rem with
  | zero =>
    intro ndx h
    simp [SwitchInstantiator.doerAux]
  | succ r ih =>
    intro ndx h
    have he : ¬ (index = ndx) := by omega
    rw [SwitchInstantiator.doerAux, if_neg he, ih (ndx + 1) (by omega)]
    have harith : ndx + 1 + r = ndx + (r + 1) := by omega
    simp [harith]

/-- detail::TypeAtIndexByRemaining agrees with positional lookup on the
type list, defined or not. -/
lemma typeAtIndexByRemaining_eq_get? :
    ∀ (i : Nat) (ts : List CType),
      typeAtIndexByRemaining i ts = ts.get? i
  | _, [] => by simp [typeAtIndexByRemaining]
  | 0, t :: _ => by simp [typeAtIndexByRemaining]
  | r + 1, t :: rest => by
    simp [typeAtIndexByRemaining, typeAtIndexByRemaining_eq_get? r rest]

/-- When the argument list is not a lone Pack, TypeAtIndex_t is the
primary template, i.e. detail::TypeAtIndexByRemaining. -/
lemma TypeAtIndex_t_not_pack (i : Nat) (ts : List CType)
    (hnp : ∀ us, ts ≠ [CType.mkPack us]) :
    TypeAtIndex_t i ts = typeAtIndexByRemaining i ts := by
  rw [TypeAtIndex_t.eq_def]
  cases ts with
  | nil => rfl
  | cons t rest =>
    cases t with
    | base n => rfl
    | mkPack us =>
      cases rest with
      | nil => exact absurd rfl (hnp us)
      | cons r rest2 => rfl

/-- The Pack specialization: a lone Pack argument is unwrapped. -/
lemma TypeAtIndex_t_single_pack (i : Nat) (us : List CType) :
    TypeAtIndex_t i [CType.mkPack us] = TypeAtIndex_t i us := by
  rw [TypeAtIndex_t.eq_def]

/-- Indices_impl<c> with accumulator acc produces 0, ..., c followed by
acc. -/
lemma Indices_impl_eq_range (c : Nat) :
    ∀ acc, Indices_impl c acc = List.range (c + 1) ++ acc := by
  induction c with
  | zero =>
    intro acc
    simp [Indices_impl, List.range_succ]
  | succ n ih =>
    intro acc
    simp [Indices_impl, ih ((n + 1) :: acc), List.range_succ]

/-- C1: for every handler family, every size N >= 1 and every index
i < N, both the array-based Instantiator::execute and the switch-based
SwitchInstantiator::execute invoke exactly the handler registered at
index i (the specialization UserTemplate<i>::execute) and no other: the
trace of invoked specializations is [i]. -/
theorem c1_dispatch_invokes_exactly_index {α β : Type _}
    (H : Nat → α → β) (N i : Nat) (a : α) (h : i < N) :
    (Instantiator.execute H N a i).1 = [i] ∧
    (SwitchInstantiator.execute H N a i).1 = [i] := by
  constructor
  · simp only [Instantiator.execute, Instantiator.executeSt,
      jumpTable_get H h]
  · rw [SwitchInstantiator.execute, SwitchInstantiator.doer,
      doerAux_of_le H a i (N - 1 - 0) 0 (Nat.zero_le i) (by omega)]

/-- C1 witness: at N = 3, index 1, both dispatchers invoke exactly
handler 1. -/
theorem c1_dispatch_invokes_exactly_index_witness :
    (Instantiator.execute (fun i (a : Nat) => i + a) 3 5 1).1 = [1] ∧
    (SwitchInstantiator.execute (fun i (a : Nat) => i + a) 3 5 1).1 = [1] :=
  c1_dispatch_invokes_exactly_index (fun i (a : Nat) => i + a) 3 1 5
    (by decide)

/-- C2 counterexample: with N = 2 handlers, the switch dispatcher called
with the out-of-range index 5 invokes the handler at index 1 (its trace
is [1], not []), so execute does not invoke zero handlers and no
OutOfRangeError is raised; the claim is false on the code. -/
theorem c2_counterexample :
    ¬ ((SwitchInstantiator.execute (fun i (_ : Nat) => i) 2 0 5).1 = []) := by
  decide

/-- C2 amended: for every index i outside [0, N), no OutOfRangeError is
raised (the code has no such check or error): the array-based
Instantiator::execute performs an unchecked out-of-bounds table read
(undefined behavior in the source, modelled as invoking no handler and
producing no result), and SwitchInstantiator::execute invokes the
handler at index N - 1 instead of failing. -/
theorem c2_out_of_range_amended {α β : Type _} (H : Nat → α → β)
    (N i : Nat) (a : α) (h1 : 1 ≤ N) (h2 : N ≤ i) :
    Instantiator.execute H N a i = ([], none) ∧
    (SwitchInstantiator.execute H N a i).1 = [N - 1] := by
  constructor
  · simp only [Instantiator.execute, Instantiator.executeSt,
      jumpTable_get_none H h2]
  · rw [SwitchInstantiator.execute, SwitchInstantiator.doer,
      doerAux_of_gt H a i (N - 1 - 0) 0 (by omega)]
    simp

/-- C2 amended witness: at N = 2 and index 5, the array dispatcher
invokes nothing and produces nothing, while the switch dispatcher
invokes handler 1. -/
theorem c2_out_of_range_amended_witness :
    Instantiator.execute (fun i (_ : Nat) => i) 2 0 5 = ([], none) ∧
    (SwitchInstantiator.execute (fun i (_ : Nat) => i) 2 0 5).1 = [1] :=
  c2_out_of_range_amended (fun i (_ : Nat) => i) 2 5 0 (by decide)
    (by decide)

/-- C3 (code bug): the two dispatch strategies are not observationally
equivalent on valid indices: with N = 2, handlers H i = 10 + i and the
valid index 1, the array dispatcher returns the handler result 11, while
the switch dispatcher loses it, because the default branch of
SwitchInstantiator::doer calls doer<Ndx+1> without returning its value,
so control falls off the end of a non-void function. -/
theorem c3_strategies_disagree_on_valid_index :
    (Instantiator.execute (fun i (_ : Nat) => 10 + i) 2 0 1).2 = some 11 ∧
    (SwitchInstantiator.execute (fun i (_ : Nat) => 10 + i) 2 0 1).2 =
      none := by
  decide

/-- C4 (code bug): execute does not always return the selected handler
result unchanged: with N = 2, handlers H i = i * 7 and valid index 1,
the array dispatcher returns ([1], some 7) as the claim states, but the
switch dispatcher returns ([1], none): the missing return before the
recursive doer call discards the value of UserTemplate<1>::execute. -/
theorem c4_switch_loses_handler_result :
    Instantiator.execute (fun i (_ : Nat) => i * 7) 2 0 1 = ([1], some 7) ∧
    SwitchInstantiator.execute (fun i (_ : Nat) => i * 7) 2 0 1 =
      ([1], none) := by
  decide

/-- C5 counterexample: for the one-element type list whose element is
Pack<int> (modelled as mkPack [base 0]), TypeAtIndex_t<0, Pack<int>> is
int (base 0) and not the element Pack<int> itself: the Pack
specialization unwraps a lone Pack argument, so the claim fails on that
list. -/
theorem c5_counterexample :
    TypeAtIndex_t 0 [CType.mkPack [CType.base 0]] ≠
      some (CType.mkPack [CType.base 0]) := by
  rw [TypeAtIndex_t_single_pack,
    TypeAtIndex_t_not_pack 0 [CType.base 0] (by simp)]
  simp [typeAtIndexByRemaining]

/-- C5 amended: for every non-empty type list that is not a lone Pack
argument and every index i < N, TypeAtIndex_t<i, T0, ..., T(N-1)> is
exactly the type Ti at position i (a lone Pack argument is instead
unwrapped by the Pack specialization). -/
theorem c5_type_at_index_amended (ts : List CType) (i : Nat)
    (h : i < ts.length) (hnp : ∀ us, ts ≠ [CType.mkPack us]) :
    TypeAtIndex_t i ts = some (ts.get ⟨i, h⟩) := by
  rw [TypeAtIndex_t_not_pack i ts hnp, typeAtIndexByRemaining_eq_get?,
    List.get?_eq_get h]

/-- C5 amended witness: on the two-element list (long, char) the lookup
at index 1 returns the second type. -/
theorem c5_type_at_index_amended_witness :
    TypeAtIndex_t 1 [CType.base 4, CType.base 9] = some (CType.base 9) :=
  c5_type_at_index_amended [CType.base 4, CType.base 9] 1 (by simp)
    (by simp)

/-- C6: building the dispatch table over make_index_sequence<Size>
yields exactly Size entries, and the entry at every index j < Size is
the handler UserTemplate<j>::execute, in index order. -/
theorem c6_jump_table_size_and_order {α β : Type _} (H : Nat → α → β)
    (N : Nat) :
    (Instantiator.jumpTable H N).length = N ∧
    ∀ j, j < N → (Instantiator.jumpTable H N).get? j =
      some (fun a => (j, H j a)) :=
  ⟨jumpTable_length H N, fun _ hj => jumpTable_get H hj⟩

/-- C6 witness: at Size 3 the table has three entries and entry 1 is
handler 1. -/
theorem c6_jump_table_size_and_order_witness :
    (Instantiator.jumpTable (fun i (a : Nat) => i + a) 3).length = 3 ∧
    (Instantiator.jumpTable (fun i (a : Nat) => i + a) 3).get? 1 =
      some (fun a => (1, 1 + a)) :=
  ⟨(c6_jump_table_size_and_order (fun i (a : Nat) => i + a) 3).1,
   (c6_jump_table_size_and_order (fun i (a : Nat) => i + a) 3).2 1
     (by decide)⟩

/-- C7 counterexample: Indices<3> is the index pack 0, 1, 2, 3 with four
elements, not the three contiguous indices 0, 1, 2 that the claim
states. -/
theorem c7_counterexample : Indices 3 ≠ [0, 1, 2] := by decide

/-- C7 amended: Indices<count> (reading the ill-formed alias, which
passes the type unsigned long as the non-type count argument, as the
evident Indices_impl<count>::type) produces the contiguous zero-based
indices 0, 1, ..., count in increasing order: count + 1 elements, no
duplicates and no gaps, one element more than the claim states. -/
theorem c7_indices_amended (n : Nat) :
    Indices n = List.range (n + 1) ∧
    IndexPack.arity (Indices n) = n + 1 := by
  have h := Indices_impl_eq_range n []
  rw [Indices] at *
  constructor
  · simpa using h
  · simp [IndexPack.arity, h]

/-- C8: dispatch is deterministic and mutates no dispatch-table state:
with the table built once by makeJumpTable, executing returns the table
unchanged, a second execution from the post-state returns the same
observation as the first, and on a valid index that observation is
exactly one invocation of handler i together with its result. -/
theorem c8_dispatch_deterministic_immutable {α β : Type _}
    (H : Nat → α → β) (N : Nat) (a : α) (i : Nat) (h : i < N) :
    (Instantiator.executeSt a i (Instantiator.jumpTable H N)).2 =
      Instantiator.jumpTable H N ∧
    (Instantiator.executeSt a i
        ((Instantiator.executeSt a i (Instantiator.jumpTable H N)).2)).1 =
      (Instantiator.executeSt a i (Instantiator.jumpTable H N)).1 ∧
    (Instantiator.executeSt a i (Instantiator.jumpTable H N)).1 =
      ([i], some (H i a)) := by
  refine ⟨rfl, rfl, ?_⟩
  simp only [Instantiator.executeSt, jumpTable_get H h]

/-- C8 witness: at N = 3, index 1, argument 5 the table survives the
call unchanged, the repeated call observes the same thing, and the
observation is one invocation of handler 1 returning 1 * 5. -/
theorem c8_dispatch_deterministic_immutable_witness :
    (Instantiator.executeSt 5 1
        (Instantiator.jumpTable (fun i (a : Nat) => i * a) 3)).2 =
      Instantiator.jumpTable (fun i (a : Nat) => i * a) 3 ∧
    (Instantiator.executeSt 5 1
        ((Instantiator.executeSt 5 1
            (Instantiator.jumpTable (fun i (a : Nat) => i * a) 3)).2)).1 =
      (Instantiator.executeSt 5 1
        (Instantiator.jumpTable (fun i (a : Nat) => i * a) 3)).1 ∧
    (Instantiator.executeSt 5 1
        (Instantiator.jumpTable (fun i (a : Nat) => i * a) 3)).1 =
      ([1], some 5) :=
  c8_dispatch_deterministic_immutable (fun i (a : Nat) => i * a) 3 5 1
    (by decide)

/-- C9 counterexample: for the pack Pack<Pack<int>>, whose single
element is itself a Pack, indexing does not commute with the executor:
the lone Pack element is unwrapped again by the Pack specialization, so
Internal<0> is E<int> (here, with E the identity, int = base 0) rather
than E<Pack<int>>. -/
theorem c9_counterexample :
    PackIndexer.Internal (fun t => t)
        [CType.mkPack [CType.mkPack [CType.base 0]]] 0 ≠
      some (CType.mkPack [CType.base 0]) := by
  rw [PackIndexer.Internal, TypeAtIndex_t_single_pack,
    TypeAtIndex_t_single_pack,
    TypeAtIndex_t_not_pack 0 [CType.base 0] (by simp)]
  simp [typeAtIndexByRemaining]

/-- C9 amended: TypeAtIndex applied to a single Pack argument unwraps
the elements of the pack rather than treating the Pack itself as element
0, and for every executor E, every index i < N and every pack whose
element list is not itself a lone Pack,
PackIndexer<E, Pack<T0, ..., T(N-1)>>::Internal<i> is exactly E<Ti>. -/
theorem c9_pack_indexer_amended {γ : Type _} (E : CType → γ)
    (ts : List CType) (i : Nat) (h : i < ts.length)
    (hnp : ∀ us, ts ≠ [CType.mkPack us]) :
    TypeAtIndex_t i [CType.mkPack ts] = TypeAtIndex_t i ts ∧
    PackIndexer.Internal E [CType.mkPack ts] i =
      some (E (ts.get ⟨i, h⟩)) := by
  refine ⟨TypeAtIndex_t_single_pack i ts, ?_⟩
  rw [PackIndexer.Internal, TypeAtIndex_t_single_pack,
    TypeAtIndex_t_not_pack i ts hnp, typeAtIndexByRemaining_eq_get?,
    List.get?_eq_get h]
  rfl

/-- C9 amended witness: indexing Pack<(char, long)> at 0 through the
executor E<T> = Pack<T> yields E<char>. -/
theorem c9_pack_indexer_amended_witness :
    TypeAtIndex_t 0 [CType.mkPack [CType.base 2, CType.base 3]] =
      TypeAtIndex_t 0 [CType.base 2, CType.base 3] ∧
    PackIndexer.Internal (fun t => CType.mkPack [t])
        [CType.mkPack [CType.base 2, CType.base 3]] 0 =
      some (CType.mkPack [CType.base 2]) :=
  c9_pack_indexer_amended (fun t => CType.mkPack [t])
    [CType.base 2, CType.base 3] 0 (by simp) (by simp)

/-- C10 (code bug): with N = 2 handlers H i = 100 + i and the
out-of-range index 5, the terminal case of the switch chain does invoke
the last handler UserTemplate<1>::execute and no other (the trace is
[1]), but its result is lost rather than returned (the default branch
that forwarded the call discards the recursive value and control falls
off the end of a non-void function), contradicting the claim that the
last handler result is returned. -/
theorem c10_out_of_range_clamps_but_loses_result :
    SwitchInstantiator.execute (fun i (_ : Nat) => 100 + i) 2 0 5 =
      ([1], none) := by
  decide
